import Mathlib

set_option linter.unusedVariables false

/-! Shallow embedding of the failmail library: `src/failmail/registry.py` and
`src/failmail/notifier.py`. Pure functions are translated to Lean functions;
the mutable registry dictionary becomes explicit state passing over an
association list; Python exceptions become `Except` / `Option` error values;
the SMTP transport collaborator (external to the repository) is an oracle
recording an event trace. -/

/-- A Python runtime value passed where `list[str]` is expected: either an
actual `str` or some non-string object (tagged by a number), modelling the
dynamic `isinstance(r, str)` check in `RegistryEntry.__init__`. -/
inductive PyObj where
  | str (s : String)
  | nonStr (tag : Nat)
deriving DecidableEq, Repr

def PyObj.isStr : PyObj → Bool
  | .str _ => true
  | .nonStr _ => false

def PyObj.asStr : PyObj → String
  | .str s => s
  | .nonStr _ => ""

/-- Whitespace characters stripped by Python `str.strip()`: the code points
for which CPython's Py UNICODE ISSPACE is true, namely U+0009..U+000D,
U+001C..U+001F, U+0020, U+0085, U+00A0, U+1680, U+2000..U+200A, U+2028,
U+2029, U+202F, U+205F and U+3000. -/
def pyIsSpace (c : Char) : Bool :=
  (0x09 ≤ c.val && c.val ≤ 0x0d) || c.val = 0x20 ||
  (0x1c ≤ c.val && c.val ≤ 0x1f) || c.val = 0x85 || c.val = 0xa0 ||
  c.val = 0x1680 || (0x2000 ≤ c.val && c.val ≤ 0x200a) ||
  c.val = 0x2028 || c.val = 0x2029 || c.val = 0x202f ||
  c.val = 0x205f || c.val = 0x3000

/-- Models the truth value of `not s.strip()`: true iff the string is empty or
consists only of whitespace. -/
def pyBlank (s : String) : Bool := s.data.all pyIsSpace

/-- A rendering context, Python `dict[str, Any]`, with values taken in their
string form (substitution only ever uses the string form of a value).
Lookup is first-match via `ctxFind`. -/
abbrev Context := List (String × String)

def ctxFind : Context → String → Option String
  | [], _ => none
  | (k, v) :: rest, q => if k = q then some v else ctxFind rest q

/-! ### string.Template.safe_substitute

The default `string.Template` pattern recognises, after a dollar sign:
a second dollar (escape), a braced ASCII identifier, a bare ASCII
identifier, or nothing valid (the dollar is left in place and scanning
resumes immediately after it). Braces are written `'\x7b'` and `'\x7d'`. -/

/-- First character of an identifier in the default template pattern
(ASCII letter or underscore). -/
def idStart (c : Char) : Bool := c.isAlpha || c = '_'

/-- Continuation character of an identifier (ASCII letter, digit, underscore). -/
def idCont (c : Char) : Bool := idStart c || c.isDigit

/-- Longest prefix of identifier-continuation characters, with the rest. -/
def takeId : List Char → List Char × List Char
  | [] => ([], [])
  | c :: cs =>
    if idCont c then
      let p := takeId cs
      (c :: p.1, p.2)
    else ([], c :: cs)

/-- Parse what follows a dollar and an opening brace: an identifier followed
by a closing brace, per the braced alternative of the template pattern. -/
def parseBraced (l : List Char) : Option (List Char × List Char) :=
  match l with
  | [] => none
  | c :: cs =>
    if idStart c then
      match takeId cs with
      | (a, '\x7d' :: rest) => some (c :: a, rest)
      | _ => none
    else none

/-- Fuel-indexed scanner for `safe_substitute`; one unit of fuel is spent per
recognised token, and the input shrinks by at least one character per step,
so fuel equal to the input length always suffices (`safeSubF_fuel`). -/
def safeSubF (ctx : Context) : Nat → List Char → List Char
  | _, [] => []
  | 0, l => l
  | f + 1, c :: rest =>
    if c = '$' then
      match rest with
      | [] => ['$']
      | c2 :: rest2 =>
        if c2 = '$' then '$' :: safeSubF ctx f rest2
        else if c2 = '\x7b' then
          match parseBraced rest2 with
          | some (id, rest3) =>
            (match ctxFind ctx (String.mk id) with
             | some v => v.data
             | none => '$' :: '\x7b' :: (id ++ ['\x7d'])) ++ safeSubF ctx f rest3
          | none => '$' :: safeSubF ctx f rest
        else if idStart c2 then
          (match takeId (c2 :: rest2) with
           | (id, rest3) =>
             (match ctxFind ctx (String.mk id) with
              | some v => v.data
              | none => '$' :: id) ++ safeSubF ctx f rest3)
        else '$' :: safeSubF ctx f rest
    else c :: safeSubF ctx f rest

/-- Character-list form of `Template(tmpl).safe_substitute(ctx)`. -/
def safeSub (ctx : Context) (l : List Char) : List Char :=
  safeSubF ctx l.length l

/-- Embedding of `Template(tmpl).safe_substitute(context)`. -/
def safe_substitute (tmpl : String) (context : Context) : String :=
  String.mk (safeSub context tmpl.data)

/-! ### RegistryEntry -/

/-- The fields of a constructed `RegistryEntry`. Python stores subject and
body as given; `body_type` is kept as the raw string that passed the
membership check. -/
structure RegistryEntry where
  recipients : List PyObj
  subject : String
  body : String
  body_type : String
deriving DecidableEq, Repr

namespace RegistryEntry

/-- Embedding of `RegistryEntry.__init__`: the four validations in source
order; a failing check raises `ValueError` (here: `Except.error` with the
message). `subject` and `body` are Lean strings, so the
`isinstance(subject, str)` / `isinstance(body, str)` halves of those checks
are vacuously satisfied; the dynamic typing of `recipients` elements is kept
via `PyObj`. -/
def mk? (recipients : List PyObj) (subject body body_type : String) :
    Except String RegistryEntry :=
  if recipients.isEmpty || !(recipients.all PyObj.isStr) then
    .error "Recipients must be a non-empty list of strings."
  else if pyBlank subject then
    .error "Subject must be a non-empty string."
  else if pyBlank body then
    .error "Body must be a non-empty string."
  else if !(body_type == "plain" || body_type == "html") then
    .error "Invalid body_type. Expected plain or html."
  else
    .ok ⟨recipients, subject, body, body_type⟩

/-- Embedding of `RegistryEntry.format`: safe-substitute the subject and the
body against the context. -/
def format (e : RegistryEntry) (context : Context) : String × String :=
  (safe_substitute e.subject context, safe_substitute e.body context)

end RegistryEntry

/-- True iff construction of a registry entry raises `ValueError`. -/
def isValidationError (r : Except String RegistryEntry) : Bool :=
  match r with
  | .error _ => true
  | .ok _ => false

/-! ### Exception types and the registry -/

/-- An exception type object: an identity, its `__name__`, and its `__base__`
chain; `root` is a type whose `__base__` is `None` (the top of the walk in
`get_entries`). -/
inductive ExcType where
  | root (id : Nat) (name : String)
  | derived (id : Nat) (name : String) (base : ExcType)
deriving DecidableEq, Repr

def ExcType.name : ExcType → String
  | .root _ n => n
  | .derived _ n _ => n

/-- The registry table `dict[type[Exception], list[RegistryEntry]]` as an
association list (insertion order of keys is kept, first match wins; the
Python dict has unique keys and every state built by the operations below
keeps keys unique). -/
abbrev Registry := List (ExcType × List RegistryEntry)

def lookupTable : Registry → ExcType → Option (List RegistryEntry)
  | [], _ => none
  | p :: ps, t => if p.1 = t then some p.2 else lookupTable ps t

/-- Embedding of `self.registry[exception_type].append(entry)` on a
`defaultdict(list)`: append to the existing list, or create the key with a
one-element list (new dict keys go to the end). -/
def registerEntry : Registry → ExcType → RegistryEntry → Registry
  | [], t, e => [(t, [e])]
  | p :: ps, t, e =>
    if p.1 = t then (p.1, p.2 ++ [e]) :: ps else p :: registerEntry ps t e

namespace ExceptionRegistry

/-- Embedding of `ExceptionRegistry.register`: construct the entry first
(its `ValueError` propagates as the `Option String` component and the state
is returned untouched), then append it to the table. -/
def register (r : Registry) (t : ExcType) (recipients : List PyObj)
    (subject body body_type : String) : Registry × Option String :=
  match RegistryEntry.mk? recipients subject body body_type with
  | .error e => (r, some e)
  | .ok en => (registerEntry r t en, none)

/-- Embedding of `ExceptionRegistry.get_entries`: walk from the given type
through its `__base__` chain; on the first type that is a key of the table,
return its stored list; past the root return the empty list. -/
def get_entries (r : Registry) : ExcType → List RegistryEntry
  | .root i n =>
    match lookupTable r (.root i n) with
    | some l => l
    | none => []
  | .derived i n b =>
    match lookupTable r (.derived i n b) with
    | some l => l
    | none => get_entries r b

end ExceptionRegistry

/-- The ancestor chain of a type, nearest first, starting at the type itself. -/
def ancestors : ExcType → List ExcType
  | .root i n => [.root i n]
  | .derived i n b => .derived i n b :: ancestors b

/-- Lookup as the spec words it: starting at the type, return the entry list
of the nearest type on the ancestor chain that has a NON-EMPTY entry list in
the table; if none has, the empty sequence. Stated separately from
`get_entries` (which tests key membership) so the two can be compared. -/
def specLookup (r : Registry) (t : ExcType) : List RegistryEntry :=
  match (ancestors t).find? (fun a => !((lookupTable r a).getD []).isEmpty) with
  | some a => (lookupTable r a).getD []
  | none => []

/-! ### Notifier -/

/-- A Python exception raised by `smtplib` operations: either an
`smtplib.SMTPException` (the class the notifier catches) or some other
exception class. -/
inductive PyError where
  | smtp (msg : String)
  | other (msg : String)
deriving DecidableEq, Repr

def PyError.isSMTP : PyError → Bool
  | .smtp _ => true
  | .other _ => false

/-- Behaviour of the external SMTP transport for one delivery attempt: for
each operation, `none` means it succeeds, `some e` means it raises `e`. -/
structure Transport where
  connect : Option PyError
  sslConnect : Option PyError
  starttls : Option PyError
  login : Option PyError
  send : Option PyError
deriving DecidableEq, Repr

def okOrSMTP : Option PyError → Bool
  | none => true
  | some e => e.isSMTP

/-- The transport only ever raises `smtplib.SMTPException`s (the contract of
the `smtplib` interface the notifier consumes). -/
def Transport.smtpOnly (t : Transport) : Bool :=
  okOrSMTP t.connect && okOrSMTP t.sslConnect && okOrSMTP t.starttls &&
    okOrSMTP t.login && okOrSMTP t.send

/-- A transport on which every operation succeeds. -/
def okTransport : Transport := ⟨none, none, none, none, none⟩

/-- Observable events of one `notify` run: transport calls and log records. -/
inductive Event where
  | connectOk
  | connectErr
  | sslConnectOk
  | sslConnectErr
  | starttlsOk
  | starttlsErr
  | loginOk
  | loginErr
  | sendOk (dest subject body : String)
  | sendErr
  | close
  | logInfo
  | logError
deriving DecidableEq, Repr

def Event.isConnAttempt : Event → Bool
  | .connectOk | .connectErr | .sslConnectOk | .sslConnectErr => true
  | _ => false

/-- Number of connection attempts (successful or not) in a trace; each
single-entry delivery attempt opens exactly one connection, so this counts
the entries whose delivery was attempted. -/
def connAttempts (evs : List Event) : Nat :=
  (evs.filter Event.isConnAttempt).length

def Event.isSend : Event → Bool
  | .sendOk _ _ _ => true
  | _ => false

/-- The successful `send_message` events of a trace, in order. -/
def sends (evs : List Event) : List Event :=
  evs.filter Event.isSend

/-- Configuration stored by `ExceptionNotifier.__init__`. -/
structure SMTPConfig where
  host : String
  port : Nat
  sender_email : String
  credentials : Option (String × String)
  encryption : String
deriving DecidableEq, Repr

/-- A wall-clock moment, the input of `datetime.now().strftime`. -/
structure DateTime where
  year : Nat
  month : Nat
  day : Nat
  hour : Nat
  minute : Nat
  second : Nat
deriving DecidableEq, Repr

def pad2 (n : Nat) : String := if n < 10 then "0" ++ toString n else toString n

def pad4 (n : Nat) : String :=
  if n < 10 then "000" ++ toString n
  else if n < 100 then "00" ++ toString n
  else if n < 1000 then "0" ++ toString n
  else toString n

/-- `strftime` with format `%Y-%m-%d %H:%M:%S` (zero-padded fields). -/
def formatTime (d : DateTime) : String :=
  pad4 d.year ++ "-" ++ pad2 d.month ++ "-" ++ pad2 d.day ++ " " ++
    pad2 d.hour ++ ":" ++ pad2 d.minute ++ ":" ++ pad2 d.second

/-- An exception instance as `notify` observes it: its runtime type
(`type(exception)`) and its string representation (`str(exception)`). -/
structure PyException where
  ty : ExcType
  msg : String
deriving DecidableEq, Repr

/-- `', '.join(entry.recipients)`; entries stored in the registry have passed
validation, so every element is a string. -/
def joinRecipients (rs : List PyObj) : String :=
  String.intercalate ", " (rs.map PyObj.asStr)

namespace ExceptionNotifier

/-- The `default_context` dict literal built inside `notify`; `tb` stands for
`traceback.format_exc()` and `now` for `datetime.datetime.now()`, both passed
in explicitly since they read ambient state. -/
def defaultContext (exc : PyException) (tb : String) (now : DateTime) : Context :=
  [("error_type", exc.ty.name),
   ("error_message", exc.msg),
   ("error_traceback", tb),
   ("timestamp", formatTime now)]

/-- Python `a | b` on dicts: a mapping where keys of `b` override keys of
`a`. With first-match lookup, listing `b` before `a` realises exactly that
precedence. -/
def dictUnion (a b : Context) : Context := b ++ a

/-- The context `notify` renders with:
`default_context | (additional_context or {})`. -/
def notifyContext (exc : PyException) (tb : String) (now : DateTime)
    (addl : Option Context) : Context :=
  dictUnion (defaultContext exc tb now) (addl.getD [])

/-- Embedding of `ExceptionNotifier._get_connection`: SSL connect, or plain
connect followed by STARTTLS when `encryption == 'tls'`. A failure is logged
and re-raised. Note that when STARTTLS fails the already-established plain
connection is abandoned without being closed. -/
def getConnection (cfg : SMTPConfig) (t : Transport) :
    List Event × Except PyError Unit :=
  if cfg.encryption = "ssl" then
    match t.sslConnect with
    | some e => ([.sslConnectErr, .logError], .error e)
    | none => ([.sslConnectOk], .ok ())
  else
    match t.connect with
    | some e => ([.connectErr, .logError], .error e)
    | none =>
      if cfg.encryption = "tls" then
        match t.starttls with
        | some e => ([.connectOk, .starttlsErr, .logError], .error e)
        | none => ([.connectOk, .starttlsOk], .ok ())
      else ([.connectOk], .ok ())

/-- The body of the `try` block of `_send_notification`: render the message,
obtain a connection, and inside the `with` block optionally log in and then
send. Entering the `with` block guarantees a `close` event on every exit,
normal or exceptional; a raise inside `_get_connection` happens before the
`with` block is entered, so no `close` is recorded on that path. -/
def sendNotificationTry (cfg : SMTPConfig) (entry : RegistryEntry)
    (context : Context) (t : Transport) : List Event × Option PyError :=
  let rendered := entry.format context
  let dest := joinRecipients entry.recipients
  let conn := getConnection cfg t
  match conn.2 with
  | .error e => (conn.1, some e)
  | .ok _ =>
    match cfg.credentials with
    | some _ =>
      match t.login with
      | some e => (conn.1 ++ [.loginErr, .close], some e)
      | none =>
        match t.send with
        | some e => (conn.1 ++ [.loginOk, .sendErr, .close], some e)
        | none =>
          (conn.1 ++ [.loginOk, .sendOk dest rendered.1 rendered.2, .logInfo, .close],
            none)
    | none =>
      match t.send with
      | some e => (conn.1 ++ [.sendErr, .close], some e)
      | none =>
        (conn.1 ++ [.sendOk dest rendered.1 rendered.2, .logInfo, .close], none)

/-- Embedding of `ExceptionNotifier._send_notification`: the `try` body with
`except smtplib.SMTPException` around it — an SMTP error is logged and
swallowed, any other exception class propagates. -/
def sendNotification (cfg : SMTPConfig) (entry : RegistryEntry)
    (context : Context) (t : Transport) : List Event × Option PyError :=
  let r := sendNotificationTry cfg entry context t
  match r.2 with
  | none => (r.1, none)
  | some e => if e.isSMTP then (r.1 ++ [.logError], none) else (r.1, some e)

/-- The `for entry in entries` loop of `notify`; `beh` gives the transport
behaviour of the connection opened for the i-th entry. An exception escaping
`_send_notification` aborts the loop and propagates. -/
def notifyLoop (cfg : SMTPConfig) (context : Context) (beh : Nat → Transport) :
    Nat → List RegistryEntry → List Event × Option PyError
  | _, [] => ([], none)
  | i, e :: rest =>
    let r := sendNotification cfg e context (beh i)
    match r.2 with
    | some er => (r.1, some er)
    | none =>
      let r2 := notifyLoop cfg context beh (i + 1) rest
      (r.1 ++ r2.1, r2.2)

/-- Embedding of `ExceptionNotifier.notify`: look the entries up by the
exception's runtime type, return immediately when there are none, otherwise
build the context and deliver each entry in order. -/
def notify (cfg : SMTPConfig) (reg : Registry) (exc : PyException)
    (addl : Option Context) (tb : String) (now : DateTime)
    (beh : Nat → Transport) : List Event × Option PyError :=
  let entries := ExceptionRegistry.get_entries reg exc.ty
  if entries.isEmpty then ([], none)
  else notifyLoop cfg (notifyContext exc tb now addl) beh 0 entries

end ExceptionNotifier

/-! ### Reachable registry states and registration sequences -/

/-- One call of the mutating public operation `register` (the only operation
that touches the table; `get_entries` and `notify` leave it unchanged). -/
inductive RegOp where
  | reg (t : ExcType) (recipients : List PyObj) (subject body body_type : String)

/-- Apply one `register` call to a registry state; a `ValidationError`
propagates to the caller and the state stays as it was. -/
def applyOp (r : Registry) : RegOp → Registry
  | .reg t rec s b bt => (ExceptionRegistry.register r t rec s b bt).1

/-- The registry state after a sequence of `register` calls, starting from
the empty table built by `ExceptionRegistry.__init__`. -/
def reachable (ops : List RegOp) : Registry := ops.foldl applyOp []

/-- The argument tuple of one `register` call (used for same-type sequences). -/
structure RegArgs where
  recipients : List PyObj
  subject : String
  body : String
  body_type : String
deriving DecidableEq, Repr

/-- The validation predicate of `RegistryEntry.__init__` as one boolean. -/
def validArgs (a : RegArgs) : Bool :=
  !a.recipients.isEmpty && a.recipients.all PyObj.isStr &&
    !pyBlank a.subject && !pyBlank a.body &&
    (a.body_type == "plain" || a.body_type == "html")

/-- The entry that validation-passing arguments construct. -/
def RegArgs.make (a : RegArgs) : RegistryEntry :=
  ⟨a.recipients, a.subject, a.body, a.body_type⟩

/-- N `register` calls for the same exception type, in call order. -/
def registerFold (r : Registry) (t : ExcType) (argsList : List RegArgs) : Registry :=
  argsList.foldl
    (fun r a => (ExceptionRegistry.register r t a.recipients a.subject a.body a.body_type).1)
    r

/-! ### Lemmas about the template scanner -/

/-- The characters of a well-formed template identifier: non-empty, an
identifier-start character followed by continuation characters. -/
def validIdChars : List Char → Bool
  | [] => false
  | c :: cs => idStart c && cs.all idCont

theorem takeId_len : ∀ l : List Char, (takeId l).2.length ≤ l.length := by
  intro l
  induction l with
  | nil => simp [takeId]
  | cons c cs ih =>
    simp only [takeId]
    split
    · exact Nat.le_trans ih (Nat.le_succ _)
    · exact Nat.le_refl _

theorem takeId_all : ∀ (a b : List Char), (∀ c ∈ a, idCont c = true) →
    (b = [] ∨ ∃ c cs, b = c :: cs ∧ idCont c = false) →
    takeId (a ++ b) = (a, b) := by
  intro a
  induction a with
  | nil =>
    intro b _ hb
    rcases hb with rfl | ⟨c, cs, rfl, hc⟩
    · rfl
    · simp [takeId, hc]
  | cons x xs ih =>
    intro b ha hb
    have hx : idCont x = true := ha x (by simp)
    have := ih b (fun c hc => ha c (by simp [hc])) hb
    simp [takeId, hx, this]

theorem parseBraced_len : ∀ (l id rest : List Char),
    parseBraced l = some (id, rest) → rest.length < l.length := by
  intro l id rest h
  match l with
  | [] => simp [parseBraced] at h
  | c :: cs =>
    simp only [parseBraced] at h
    split at h
    · split at h
      · rename_i a rest' heq
        simp only [Option.some.injEq, Prod.mk.injEq] at h
        obtain ⟨-, rfl⟩ := h
        have hlen := takeId_len cs
        rw [heq] at hlen
        simp only [List.length_cons] at hlen ⊢
        omega
      · exact absurd h (by simp)
    · exact absurd h (by simp)

theorem parseBraced_id : ∀ (k post : List Char), validIdChars k = true →
    parseBraced (k ++ '\x7d' :: post) = some (k, post) := by
  intro k post hk
  match k with
  | [] => simp [validIdChars] at hk
  | c :: cs =>
    simp only [validIdChars, Bool.and_eq_true, List.all_eq_true] at hk
    obtain ⟨hc, hcs⟩ := hk
    have htake : takeId (cs ++ '\x7d' :: post) = (cs, '\x7d' :: post) :=
      takeId_all cs ('\x7d' :: post) hcs (Or.inr ⟨'\x7d', post, rfl, by decide⟩)
    simp [parseBraced, hc, htake]

theorem safeSubF_fuel (ctx : Context) : ∀ (f f' : Nat) (l : List Char),
    l.length ≤ f → l.length ≤ f' → safeSubF ctx f l = safeSubF ctx f' l := by
  intro f
  induction f with
  | zero =>
    intro f' l hf _
    have : l = [] := List.length_eq_zero.mp (Nat.le_zero.mp hf)
    subst this
    simp [safeSubF]
  | succ fa ih =>
    intro f' l hf hf'
    match l with
    | [] => simp [safeSubF]
    | c :: rest =>
      match f' with
      | 0 => simp at hf'
      | fb + 1 =>
        simp only [List.length_cons] at hf hf'
        by_cases hc : c = '$'
        · subst hc
          rcases rest with - | ⟨c2, rest2⟩
          · rfl
          · simp only [List.length_cons] at hf hf'
            by_cases h2 : c2 = '$'
            · subst h2
              exact congrArg (List.cons '$') (ih fb rest2 (by omega) (by omega))
            · by_cases h3 : c2 = '\x7b'
              · subst h3
                rcases hpb : parseBraced rest2 with - | ⟨id, rest3⟩
                · simp only [safeSubF, hpb]
                  exact congrArg (List.cons '$')
                    (ih fb ('\x7b' :: rest2) (by simp; omega) (by simp; omega))
                · have hlt := parseBraced_len rest2 id rest3 hpb
                  simp only [safeSubF, hpb]
                  exact congrArg
                    (fun x => (match ctxFind ctx (String.mk id) with
                               | some v => v.data
                               | none => '$' :: '\x7b' :: (id ++ ['\x7d'])) ++ x)
                    (ih fb rest3 (by omega) (by omega))
              · by_cases h4 : idStart c2 = true
                · rcases htake : takeId (c2 :: rest2) with ⟨idc, rest3⟩
                  have hlen : rest3.length ≤ rest2.length + 1 := by
                    have := takeId_len (c2 :: rest2)
                    rw [htake] at this
                    simpa using this
                  simp only [safeSubF, if_neg h2, if_neg h3, if_pos h4, htake]
                  exact congrArg
                    (fun x => (match ctxFind ctx (String.mk idc) with
                               | some v => v.data
                               | none => '$' :: idc) ++ x)
                    (ih fb rest3 (by omega) (by omega))
                · simp only [safeSubF, if_neg h2, if_neg h3, if_neg h4]
                  exact congrArg (List.cons '$')
                    (ih fb (c2 :: rest2) (by simp; omega) (by simp; omega))
        · simp only [safeSubF, if_neg hc]
          exact congrArg (List.cons c) (ih fb rest (by omega) (by omega))

theorem safeSub_nil (ctx : Context) : safeSub ctx [] = [] := rfl

theorem safeSub_cons_ne (ctx : Context) (c : Char) (l : List Char)
    (hc : c ≠ '$') : safeSub ctx (c :: l) = c :: safeSub ctx l := by
  simp only [safeSub, List.length_cons, safeSubF, if_neg hc]

theorem safeSub_braced (ctx : Context) (k post : List Char)
    (hk : validIdChars k = true) :
    safeSub ctx ('$' :: '\x7b' :: (k ++ '\x7d' :: post)) =
      (match ctxFind ctx (String.mk k) with
       | some v => v.data
       | none => '$' :: '\x7b' :: (k ++ ['\x7d'])) ++ safeSub ctx post := by
  have hfuel : post.length ≤ (k ++ '\x7d' :: post).length + 1 := by
    simp only [List.length_append, List.length_cons]
    omega
  simp only [safeSub, List.length_cons, safeSubF, parseBraced_id k post hk]
  exact congrArg
    (fun x => (match ctxFind ctx (String.mk k) with
               | some v => v.data
               | none => '$' :: '\x7b' :: (k ++ ['\x7d'])) ++ x)
    (safeSubF_fuel ctx ((k ++ '\x7d' :: post).length + 1) post.length post
      hfuel (Nat.le_refl _))

theorem safeSub_placeholder : ∀ (ctx : Context) (pre k post : List Char),
    '$' ∉ pre → validIdChars k = true →
    safeSub ctx (pre ++ '$' :: '\x7b' :: (k ++ '\x7d' :: post)) =
      pre ++ ((match ctxFind ctx (String.mk k) with
               | some v => v.data
               | none => '$' :: '\x7b' :: (k ++ ['\x7d'])) ++ safeSub ctx post) := by
  intro ctx pre k post hpre hk
  induction pre with
  | nil => simpa using safeSub_braced ctx k post hk
  | cons p pre' ih =>
    have hp : p ≠ '$' := fun h => hpre (h ▸ List.mem_cons_self p pre')
    have hpre' : '$' ∉ pre' := fun h => hpre (List.mem_cons_of_mem p h)
    rw [List.cons_append, safeSub_cons_ne ctx p _ hp, ih hpre', List.cons_append]

/-- C4: for every template and context, a well-formed braced placeholder
whose key is present in the context is replaced by exactly that key's value
(in string form), and a braced placeholder whose key is absent is left as its
own literal text; the rest of the template before and after is rendered
unchanged and recursively. `safe_substitute` is a total function of the
template and the context, so rendering never raises. -/
theorem claim_C4 : ∀ (ctx : Context) (pre k post : List Char),
    '$' ∉ pre → validIdChars k = true →
    safe_substitute (String.mk (pre ++ '$' :: '\x7b' :: (k ++ '\x7d' :: post))) ctx =
      String.mk (pre ++ ((match ctxFind ctx (String.mk k) with
               | some v => v.data
               | none => '$' :: '\x7b' :: (k ++ ['\x7d'])) ++ safeSub ctx post)) := by
  intro ctx pre k post hpre hk
  simp only [safe_substitute]
  exact congrArg String.mk (safeSub_placeholder ctx pre k post hpre hk)

/-- Witness for C4 at a concrete template: the placeholder for key `name`
inside `Hello ${name}!` (braces spelled as characters) is replaced by `Bob`. -/
theorem claim_C4_witness :
    safe_substitute
        (String.mk ("Hello ".data ++ '$' :: '\x7b' :: ("name".data ++ '\x7d' :: "!".data)))
        [("name", "Bob")] =
      String.mk ("Hello ".data ++ ((match ctxFind [("name", "Bob")] (String.mk "name".data) with
               | some v => v.data
               | none => '$' :: '\x7b' :: ("name".data ++ ['\x7d'])) ++
        safeSub [("name", "Bob")] "!".data)) :=
  claim_C4 [("name", "Bob")] "Hello ".data "name".data "!".data (by decide) (by decide)

/-! ### Registry lemmas -/

theorem lookupTable_mem : ∀ (r : Registry) (t : ExcType) (l : List RegistryEntry),
    lookupTable r t = some l → (t, l) ∈ r := by
  intro r t l h
  induction r with
  | nil => simp [lookupTable] at h
  | cons p ps ih =>
    simp only [lookupTable] at h
    split at h
    · rename_i heq
      simp only [Option.some.injEq] at h
      rw [List.mem_cons]
      left
      cases p
      simp_all
    · right
      exact ih h

theorem get_entries_hit : ∀ (r : Registry) (t : ExcType) (l : List RegistryEntry),
    lookupTable r t = some l → ExceptionRegistry.get_entries r t = l := by
  intro r t l h
  cases t <;> simp [ExceptionRegistry.get_entries, h]

theorem registerEntry_same : ∀ (r : Registry) (t : ExcType) (e : RegistryEntry),
    (lookupTable (registerEntry r t e) t).getD [] = (lookupTable r t).getD [] ++ [e] := by
  intro r t e
  induction r with
  | nil => simp [registerEntry, lookupTable]
  | cons p ps ih =>
    simp only [registerEntry]
    split
    · rename_i heq
      simp [lookupTable, heq]
    · rename_i hne
      simp only [lookupTable]
      rw [if_neg hne, if_neg hne]
      exact ih

theorem registerEntry_other : ∀ (r : Registry) (t t' : ExcType) (e : RegistryEntry),
    t' ≠ t → lookupTable (registerEntry r t e) t' = lookupTable r t' := by
  intro r t t' e hne
  induction r with
  | nil =>
    simp only [registerEntry, lookupTable]
    rw [if_neg (fun h => hne h.symm)]
  | cons p ps ih =>
    simp only [registerEntry]
    split
    · rename_i heq
      simp only [lookupTable]
      rw [if_neg (heq ▸ fun h => hne h.symm), if_neg (heq ▸ fun h => hne h.symm)]
    · simp only [lookupTable]
      split
      · rfl
      · exact ih

theorem registerEntry_wf : ∀ (r : Registry) (t : ExcType) (e : RegistryEntry),
    (∀ p ∈ r, p.2 ≠ []) → ∀ p ∈ registerEntry r t e, p.2 ≠ [] := by
  intro r t e hwf p hp
  induction r with
  | nil =>
    simp only [registerEntry, List.mem_singleton] at hp
    subst hp
    simp
  | cons q qs ih =>
    simp only [registerEntry] at hp
    split at hp
    · rcases List.mem_cons.mp hp with rfl | hmem
      · have := hwf q (by simp)
        simp only [ne_eq]
        intro hcon
        exact absurd (List.append_eq_nil.mp hcon).1 this
      · exact hwf p (by simp [hmem])
    · rcases List.mem_cons.mp hp with rfl | hmem
      · exact hwf p (by simp)
      · exact ih (fun q2 hq2 => hwf q2 (by simp [hq2])) hmem

/-- C1: on every table whose stored entry lists are non-empty (which holds in
every reachable registry state, see the reachability theorem), `get_entries`
computes exactly the spec's walk: the entry list of the nearest type on the
ancestor chain — the type itself first — with a non-empty entry list, with no
merging, and the empty sequence when no type on the chain has entries. Exact
matches therefore take precedence over ancestors, and a type with no direct
registration inherits the list of its nearest registered ancestor. -/
theorem claim_C1 : ∀ (r : Registry), (∀ p ∈ r, p.2 ≠ []) →
    ∀ t : ExcType, ExceptionRegistry.get_entries r t = specLookup r t := by
  intro r hwf t
  induction t with
  | root i n =>
    rcases h : lookupTable r (.root i n) with - | l
    · simp [ExceptionRegistry.get_entries, specLookup, ancestors, h, List.find?]
    · have hl : l ≠ [] := hwf _ (lookupTable_mem r _ l h)
      simp only [ExceptionRegistry.get_entries, h, specLookup, ancestors]
      rw [List.find?_cons_of_pos]
      · simp [h]
      · simp [h, hl]
  | derived i n b ih =>
    rcases h : lookupTable r (.derived i n b) with - | l
    · simp only [ExceptionRegistry.get_entries, h, specLookup, ancestors]
      rw [List.find?_cons_of_neg]
      · exact ih
      · simp [h]
    · have hl : l ≠ [] := hwf _ (lookupTable_mem r _ l h)
      simp only [ExceptionRegistry.get_entries, h, specLookup, ancestors]
      rw [List.find?_cons_of_pos]
      · simp [h]
      · simp [h, hl]

/-- Witness for C1: a type with no direct registration whose base holds one
entry; the walk and the spec lookup agree on it. -/
theorem claim_C1_witness :
    ExceptionRegistry.get_entries
        [(ExcType.root 0 "Exception", [⟨[PyObj.str "b@x.com"], "S", "B", "plain"⟩])]
        (ExcType.derived 1 "KeyError" (ExcType.root 0 "Exception")) =
      specLookup
        [(ExcType.root 0 "Exception", [⟨[PyObj.str "b@x.com"], "S", "B", "plain"⟩])]
        (ExcType.derived 1 "KeyError" (ExcType.root 0 "Exception")) :=
  claim_C1 _ (by decide) _

theorem reachable_wf : ∀ (ops : List RegOp) (r : Registry),
    (∀ p ∈ r, p.2 ≠ []) → ∀ p ∈ ops.foldl applyOp r, p.2 ≠ [] := by
  intro ops
  induction ops with
  | nil => intro r hwf; simpa using hwf
  | cons op ops' ih =>
    intro r hwf
    rw [List.foldl_cons]
    apply ih
    rcases op with ⟨t, rec, s, b, bt⟩
    simp only [applyOp, ExceptionRegistry.register]
    rcases hmk : RegistryEntry.mk? rec s b bt with - | en
    · simpa using hwf
    · exact registerEntry_wf r t en hwf

/-- C9: in every registry state reachable through the public operations
(only `register` mutates the table, and only after entry construction
succeeded), every stored entry list is non-empty; hence for a key of the
table the key-membership test of `get_entries` coincides with the spec's
non-empty-list test, and `get_entries` never returns the empty list for a
type that is a key of the table. -/
theorem claim_C9 : ∀ (ops : List RegOp) (t : ExcType),
    (∀ l, (t, l) ∈ reachable ops → l ≠ []) ∧
    ((lookupTable (reachable ops) t).isSome = true ↔
      (lookupTable (reachable ops) t).getD [] ≠ []) ∧
    ((lookupTable (reachable ops) t).isSome = true →
      ExceptionRegistry.get_entries (reachable ops) t ≠ []) := by
  intro ops t
  have hwf : ∀ p ∈ reachable ops, p.2 ≠ [] :=
    reachable_wf ops [] (by simp)
  refine ⟨fun l hl => hwf (t, l) hl, ?_, ?_⟩
  · constructor
    · intro hsome
      rcases h : lookupTable (reachable ops) t with - | l
      · rw [h] at hsome; simp at hsome
      · have := hwf _ (lookupTable_mem _ _ _ h)
        simpa [h] using this
    · intro hne
      rcases h : lookupTable (reachable ops) t with - | l
      · rw [h] at hne; simp at hne
      · simp [h]
  · intro hsome
    rcases h : lookupTable (reachable ops) t with - | l
    · rw [h] at hsome; simp at hsome
    · rw [get_entries_hit _ _ _ h]
      exact hwf _ (lookupTable_mem _ _ _ h)

/-- Witness for C9: after one successful registration the stored list is
non-empty and `get_entries` on the registered key is non-empty. -/
theorem claim_C9_witness :
    ([⟨[PyObj.str "a@x.com"], "S", "B", "plain"⟩] : List RegistryEntry) ≠ [] ∧
    ExceptionRegistry.get_entries
      (reachable [RegOp.reg (ExcType.root 0 "E") [PyObj.str "a@x.com"] "S" "B" "plain"])
      (ExcType.root 0 "E") ≠ [] :=
  ⟨(claim_C9 [RegOp.reg (ExcType.root 0 "E") [PyObj.str "a@x.com"] "S" "B" "plain"]
      (ExcType.root 0 "E")).1 _ (by decide),
   (claim_C9 [RegOp.reg (ExcType.root 0 "E") [PyObj.str "a@x.com"] "S" "B" "plain"]
      (ExcType.root 0 "E")).2.2 (by decide)⟩

/-- C10: `register` constructs the entry before touching the table, so a
validation failure leaves the whole table unchanged (no key added, no empty
list created); and any `register` for type `t` leaves the entry list of
every other type unchanged, whether it succeeds or fails. -/
theorem claim_C10 : ∀ (r : Registry) (t : ExcType) (recipients : List PyObj)
    (subject body body_type : String) (t' : ExcType),
    (isValidationError (RegistryEntry.mk? recipients subject body body_type) = true →
      (ExceptionRegistry.register r t recipients subject body body_type).1 = r) ∧
    (t' ≠ t →
      lookupTable (ExceptionRegistry.register r t recipients subject body body_type).1 t' =
        lookupTable r t') := by
  intro r t rec s b bt t'
  constructor
  · intro herr
    simp only [ExceptionRegistry.register]
    rcases hmk : RegistryEntry.mk? rec s b bt with - | en
    · rfl
    · rw [hmk] at herr; simp [isValidationError] at herr
  · intro hne
    simp only [ExceptionRegistry.register]
    rcases hmk : RegistryEntry.mk? rec s b bt with - | en
    · rfl
    · exact registerEntry_other r t t' en hne

/-- Witness for C10: a failed registration (empty recipient list) leaves a
one-key table unchanged, and a successful registration for a fresh type
leaves the other key's list unchanged. -/
theorem claim_C10_witness :
    (ExceptionRegistry.register
        [(ExcType.root 0 "A", [⟨[PyObj.str "x@y.z"], "S", "B", "plain"⟩])]
        (ExcType.root 0 "A") [] "s" "b" "plain").1 =
      [(ExcType.root 0 "A", [⟨[PyObj.str "x@y.z"], "S", "B", "plain"⟩])] ∧
    lookupTable
        (ExceptionRegistry.register
          [(ExcType.root 0 "A", [⟨[PyObj.str "x@y.z"], "S", "B", "plain"⟩])]
          (ExcType.root 1 "B") [PyObj.str "q@y.z"] "s" "b" "plain").1
        (ExcType.root 0 "A") =
      lookupTable
        [(ExcType.root 0 "A", [⟨[PyObj.str "x@y.z"], "S", "B", "plain"⟩])]
        (ExcType.root 0 "A") :=
  ⟨(claim_C10 _ (ExcType.root 0 "A") [] "s" "b" "plain" (ExcType.root 0 "A")).1 (by decide),
   (claim_C10 _ (ExcType.root 1 "B") [PyObj.str "q@y.z"] "s" "b" "plain"
      (ExcType.root 0 "A")).2 (by decide)⟩

/-- C2 counterexample: the claim requires construction to fail when the
recipient list contains an empty-string element, but
`all(isinstance(r, str) for r in recipients)` accepts the empty string, so
construction with the single recipient `""` succeeds. -/
theorem claim_C2_counterexample :
    isValidationError (RegistryEntry.mk? [PyObj.str ""] "Subject" "Body" "plain") = false := by
  decide

/-- C2 amended: construction fails with `ValidationError` exactly when the
recipients list is empty or contains a non-string element (empty strings are
accepted), the subject is empty or whitespace-only, the body is empty or
whitespace-only, or the body format is neither of the two recognized values;
otherwise construction succeeds. -/
theorem claim_C2_amended : ∀ (recipients : List PyObj) (subject body body_type : String),
    isValidationError (RegistryEntry.mk? recipients subject body body_type) = true ↔
      (recipients = [] ∨ (∃ x ∈ recipients, PyObj.isStr x = false) ∨
        pyBlank subject = true ∨ pyBlank body = true ∨
        (body_type ≠ "plain" ∧ body_type ≠ "html")) := by
  intro rec s b bt
  simp only [RegistryEntry.mk?]
  by_cases h1 : (rec.isEmpty || !rec.all PyObj.isStr) = true
  · rw [if_pos h1]
    simp only [isValidationError, true_iff]
    rcases Bool.or_eq_true_iff.mp h1 with ha | hb
    · exact Or.inl (List.isEmpty_iff.mp ha)
    · refine Or.inr (Or.inl ?_)
      have : ¬(rec.all PyObj.isStr = true) := by
        simpa using hb
      rw [List.all_eq_true] at this
      push_neg at this
      obtain ⟨x, hx, hxs⟩ := this
      exact ⟨x, hx, by simpa using hxs⟩
  · rw [if_neg h1]
    have hrec : rec ≠ [] ∧ ∀ x ∈ rec, PyObj.isStr x = true := by
      simp only [Bool.or_eq_true_iff, not_or, Bool.not_eq_true] at h1
      obtain ⟨ha, hb⟩ := h1
      constructor
      · intro hcon
        rw [hcon] at ha
        simp at ha
      · have : rec.all PyObj.isStr = true := by
          rcases hall : rec.all PyObj.isStr with - | -
          · rw [hall] at hb; simp at hb
          · rfl
        exact List.all_eq_true.mp this
    by_cases h2 : pyBlank s = true
    · rw [if_pos h2]
      simp only [isValidationError, true_iff]
      exact Or.inr (Or.inr (Or.inl h2))
    · rw [if_neg h2]
      by_cases h3 : pyBlank b = true
      · rw [if_pos h3]
        simp only [isValidationError, true_iff]
        exact Or.inr (Or.inr (Or.inr (Or.inl h3)))
      · rw [if_neg h3]
        by_cases h4 : (!(bt == "plain" || bt == "html")) = true
        · rw [if_pos h4]
          simp only [isValidationError, true_iff]
          refine Or.inr (Or.inr (Or.inr (Or.inr ?_)))
          simp only [Bool.not_eq_true', Bool.or_eq_false_iff, beq_eq_false_iff_ne] at h4
          exact h4
        · rw [if_neg h4]
          simp only [isValidationError, Bool.false_eq_true, false_iff, not_or]
          refine ⟨hrec.1, ?_, by simpa using h2, by simpa using h3, ?_⟩
          · push_neg
            intro x hx
            simp [hrec.2 x hx]
          · have h4' : bt = "plain" ∨ bt = "html" := by
              by_contra hcon
              push_neg at hcon
              exact h4 (by simp [hcon.1, hcon.2])
            rcases h4' with hp | hh
            · intro hcon
              exact hcon.1 hp
            · intro hcon
              exact hcon.2 hh

theorem ctxFind_append : ∀ (a b : Context) (k : String),
    ctxFind (a ++ b) k = ((ctxFind a k).orElse (fun _ => ctxFind b k)) := by
  intro a b k
  induction a with
  | nil => simp [ctxFind, Option.orElse]
  | cons p rest ih =>
    rcases p with ⟨k1, v1⟩
    simp only [List.cons_append, ctxFind]
    split
    · rfl
    · exact ih

/-- C5: the context `notify` renders with resolves every key to the
caller-supplied value when the caller supplied that key, and otherwise to the
default value; and the default context binds exactly `error_type` to the
exception's runtime type name, `error_message` to its string representation,
`error_traceback` to the captured traceback text, and `timestamp` to the
`YYYY-MM-DD HH:MM:SS` formatting of the current time. -/
theorem claim_C5 : ∀ (exc : PyException) (tb : String) (now : DateTime)
    (addl : Option Context) (k : String),
    ctxFind (ExceptionNotifier.notifyContext exc tb now addl) k =
      ((ctxFind (addl.getD []) k).orElse
        (fun _ => ctxFind (ExceptionNotifier.defaultContext exc tb now) k)) ∧
    ctxFind (ExceptionNotifier.defaultContext exc tb now) "error_type" = some exc.ty.name ∧
    ctxFind (ExceptionNotifier.defaultContext exc tb now) "error_message" = some exc.msg ∧
    ctxFind (ExceptionNotifier.defaultContext exc tb now) "error_traceback" = some tb ∧
    ctxFind (ExceptionNotifier.defaultContext exc tb now) "timestamp" = some (formatTime now) := by
  intro exc tb now addl k
  refine ⟨?_, ?_, ?_, ?_, ?_⟩
  · simp only [ExceptionNotifier.notifyContext, ExceptionNotifier.dictUnion]
    exact ctxFind_append _ _ k
  · simp [ExceptionNotifier.defaultContext, ctxFind]
  · simp [ExceptionNotifier.defaultContext, ctxFind]
  · simp [ExceptionNotifier.defaultContext, ctxFind]
  · simp [ExceptionNotifier.defaultContext, ctxFind]

/-- C6: when the exception's type and its whole ancestor chain have no
registered entries, `notify` records no transport event at all and returns
normally with no exception. -/
theorem claim_C6 : ∀ (cfg : SMTPConfig) (reg : Registry) (exc : PyException)
    (addl : Option Context) (tb : String) (now : DateTime) (beh : Nat → Transport),
    ExceptionRegistry.get_entries reg exc.ty = [] →
    ExceptionNotifier.notify cfg reg exc addl tb now beh = ([], none) := by
  intro cfg reg exc addl tb now beh h
  simp [ExceptionNotifier.notify, h]

/-- Witness for C6: an empty registry, a concrete exception and transport. -/
theorem claim_C6_witness :
    ExceptionNotifier.notify ⟨"smtp.example.com", 25, "s@x.com", none, "tls"⟩ []
      ⟨ExcType.root 0 "ValueError", "boom"⟩ none "tb" ⟨2025, 1, 1, 0, 0, 0⟩
      (fun _ => okTransport) = ([], none) :=
  claim_C6 _ _ _ _ _ _ _ (by decide)

/-- C8 evidence: with `encryption = 'tls'`, when the plain connect succeeds
and `starttls()` then raises an `SMTPException`, `_get_connection` raises
before the `with` block is entered, so the established connection is never
closed: the single-entry delivery trace contains the successful connect but
no close. This contradicts the required discipline that the connection be
closed on every exit path after a successful connect. -/
theorem claim_C8_code_bug :
    Event.connectOk ∈
      (ExceptionNotifier.sendNotification ⟨"smtp.example.com", 587, "s@x.com", none, "tls"⟩
        ⟨[PyObj.str "a@x.com"], "S", "B", "plain"⟩ []
        ⟨none, none, some (PyError.smtp "starttls failed"), none, none⟩).1 ∧
    Event.close ∉
      (ExceptionNotifier.sendNotification ⟨"smtp.example.com", 587, "s@x.com", none, "tls"⟩
        ⟨[PyObj.str "a@x.com"], "S", "B", "plain"⟩ []
        ⟨none, none, some (PyError.smtp "starttls failed"), none, none⟩).1 := by
  decide

/-! ### Delivery lemmas -/

theorem connAttempts_append : ∀ (a b : List Event),
    connAttempts (a ++ b) = connAttempts a + connAttempts b := by
  intro a b
  simp [connAttempts, List.filter_append]

theorem getConnection_connAttempts : ∀ (cfg : SMTPConfig) (t : Transport),
    connAttempts (ExceptionNotifier.getConnection cfg t).1 = 1 := by
  intro cfg t
  unfold ExceptionNotifier.getConnection
  split
  · split <;> simp [connAttempts, Event.isConnAttempt, List.filter]
  · split
    · simp [connAttempts, Event.isConnAttempt, List.filter]
    · split
      · split <;> simp [connAttempts, Event.isConnAttempt, List.filter]
      · simp [connAttempts, Event.isConnAttempt, List.filter]

theorem sendTry_connAttempts : ∀ (cfg : SMTPConfig) (e : RegistryEntry)
    (ctx : Context) (t : Transport),
    connAttempts (ExceptionNotifier.sendNotificationTry cfg e ctx t).1 = 1 := by
  intro cfg e ctx t
  rcases t with ⟨tc, tssl, ttls, tlog, tsnd⟩
  rcases hc : cfg.credentials with - | cr <;>
    by_cases hssl : cfg.encryption = "ssl" <;>
    by_cases htls : cfg.encryption = "tls" <;>
    rcases tc with - | ec <;> rcases tssl with - | es <;> rcases ttls with - | et <;>
    rcases tlog with - | el <;> rcases tsnd with - | ed <;>
    first
      | exact absurd (hssl ▸ htls) (by decide)
      | simp [ExceptionNotifier.sendNotificationTry, ExceptionNotifier.getConnection,
          hc, hssl, htls, connAttempts, Event.isConnAttempt, List.filter]

theorem sendNotification_connAttempts : ∀ (cfg : SMTPConfig) (e : RegistryEntry)
    (ctx : Context) (t : Transport),
    connAttempts (ExceptionNotifier.sendNotification cfg e ctx t).1 = 1 := by
  intro cfg e ctx t
  have h := sendTry_connAttempts cfg e ctx t
  rcases htry : ExceptionNotifier.sendNotificationTry cfg e ctx t with ⟨evs, err⟩
  rw [htry] at h
  simp only [ExceptionNotifier.sendNotification, htry]
  rcases err with - | er
  · simpa using h
  · show connAttempts (if er.isSMTP = true then (evs ++ [Event.logError], none)
        else ((evs, some er) : List Event × Option PyError)).1 = 1
    by_cases hsm : er.isSMTP = true
    · rw [if_pos hsm]
      show connAttempts (evs ++ [Event.logError]) = 1
      have h2 : connAttempts evs = 1 := h
      rw [connAttempts_append, h2]
      simp [connAttempts, Event.isConnAttempt, List.filter]
    · rw [if_neg hsm]
      exact h

theorem getConnection_err : ∀ (cfg : SMTPConfig) (t : Transport) (er : PyError),
    (ExceptionNotifier.getConnection cfg t).2 = .error er →
    some er = t.connect ∨ some er = t.sslConnect ∨ some er = t.starttls := by
  intro cfg t er h
  unfold ExceptionNotifier.getConnection at h
  split at h
  · split at h
    · rename_i heq
      simp only [Except.error.injEq] at h
      right; left
      rw [heq, h]
    · simp at h
  · split at h
    · rename_i heq
      simp only [Except.error.injEq] at h
      left
      rw [heq, h]
    · split at h
      · split at h
        · rename_i heq
          simp only [Except.error.injEq] at h
          right; right
          rw [heq, h]
        · simp at h
      · simp at h

theorem sendTry_err : ∀ (cfg : SMTPConfig) (e : RegistryEntry) (ctx : Context)
    (t : Transport) (er : PyError),
    (ExceptionNotifier.sendNotificationTry cfg e ctx t).2 = some er →
    some er = t.connect ∨ some er = t.sslConnect ∨ some er = t.starttls ∨
      some er = t.login ∨ some er = t.send := by
  intro cfg e ctx t er h
  rcases t with ⟨tc, tssl, ttls, tlog, tsnd⟩
  rcases hc : cfg.credentials with - | cr <;>
    by_cases hssl : cfg.encryption = "ssl" <;>
    by_cases htls : cfg.encryption = "tls" <;>
    rcases tc with - | ec <;> rcases tssl with - | es <;> rcases ttls with - | et <;>
    rcases tlog with - | el <;> rcases tsnd with - | ed <;>
    first
      | exact absurd (hssl ▸ htls) (by decide)
      | simp_all [ExceptionNotifier.sendNotificationTry, ExceptionNotifier.getConnection]

theorem sendNotification_caught : ∀ (cfg : SMTPConfig) (e : RegistryEntry)
    (ctx : Context) (t : Transport), Transport.smtpOnly t = true →
    (ExceptionNotifier.sendNotification cfg e ctx t).2 = none := by
  intro cfg e ctx t hsm
  rcases htry : ExceptionNotifier.sendNotificationTry cfg e ctx t with ⟨evs, err⟩
  simp only [ExceptionNotifier.sendNotification, htry]
  rcases err with - | er
  · rfl
  · have hprov := sendTry_err cfg e ctx t er (by rw [htry])
    have hsmtp : er.isSMTP = true := by
      simp only [Transport.smtpOnly, Bool.and_eq_true] at hsm
      obtain ⟨⟨⟨⟨h1, h2⟩, h3⟩, h4⟩, h5⟩ := hsm
      rcases hprov with hp | hp | hp | hp | hp
      · rw [← hp] at h1; simpa [okOrSMTP] using h1
      · rw [← hp] at h2; simpa [okOrSMTP] using h2
      · rw [← hp] at h3; simpa [okOrSMTP] using h3
      · rw [← hp] at h4; simpa [okOrSMTP] using h4
      · rw [← hp] at h5; simpa [okOrSMTP] using h5
    simp [hsmtp]

theorem sendNotification_logged : ∀ (cfg : SMTPConfig) (e : RegistryEntry)
    (ctx : Context) (t : Transport), Transport.smtpOnly t = true →
    (ExceptionNotifier.sendNotificationTry cfg e ctx t).2.isSome = true →
    Event.logError ∈ (ExceptionNotifier.sendNotification cfg e ctx t).1 := by
  intro cfg e ctx t hsm hfail
  rcases htry : ExceptionNotifier.sendNotificationTry cfg e ctx t with ⟨evs, err⟩
  rw [htry] at hfail
  rcases err with - | er
  · simp at hfail
  · have hprov := sendTry_err cfg e ctx t er (by rw [htry])
    have hsmtp : er.isSMTP = true := by
      simp only [Transport.smtpOnly, Bool.and_eq_true] at hsm
      obtain ⟨⟨⟨⟨h1, h2⟩, h3⟩, h4⟩, h5⟩ := hsm
      rcases hprov with hp | hp | hp | hp | hp
      · rw [← hp] at h1; simpa [okOrSMTP] using h1
      · rw [← hp] at h2; simpa [okOrSMTP] using h2
      · rw [← hp] at h3; simpa [okOrSMTP] using h3
      · rw [← hp] at h4; simpa [okOrSMTP] using h4
      · rw [← hp] at h5; simpa [okOrSMTP] using h5
    simp [ExceptionNotifier.sendNotification, htry, hsmtp]

theorem notifyLoop_ok : ∀ (cfg : SMTPConfig) (ctx : Context) (beh : Nat → Transport),
    (∀ j, Transport.smtpOnly (beh j) = true) →
    ∀ (entries : List RegistryEntry) (i : Nat),
    (ExceptionNotifier.notifyLoop cfg ctx beh i entries).2 = none ∧
    connAttempts (ExceptionNotifier.notifyLoop cfg ctx beh i entries).1 = entries.length := by
  intro cfg ctx beh hsm entries
  induction entries with
  | nil => intro i; simp [ExceptionNotifier.notifyLoop, connAttempts]
  | cons e rest ih =>
    intro i
    have hnone := sendNotification_caught cfg e ctx (beh i) (hsm i)
    have hcnt := sendNotification_connAttempts cfg e ctx (beh i)
    rcases hsend : ExceptionNotifier.sendNotification cfg e ctx (beh i) with ⟨evs, err⟩
    rw [hsend] at hnone hcnt
    simp only at hnone
    subst hnone
    obtain ⟨ih1, ih2⟩ := ih (i + 1)
    simp only [ExceptionNotifier.notifyLoop, hsend]
    refine ⟨ih1, ?_⟩
    simp only at hcnt
    rw [connAttempts_append, hcnt, ih2, List.length_cons]
    omega

/-- C3: when the transport raises only `smtplib.SMTPException`s (the
interface the notifier consumes), every matching entry's delivery is
attempted independently: `notify` raises nothing, the trace holds exactly
one connection attempt per matching entry even when earlier entries failed,
and at the single-entry level a transport failure is swallowed by
`_send_notification` and reported with a log record. -/
theorem claim_C3 : ∀ (cfg : SMTPConfig) (reg : Registry) (exc : PyException)
    (addl : Option Context) (tb : String) (now : DateTime) (beh : Nat → Transport),
    (∀ j, Transport.smtpOnly (beh j) = true) →
    (ExceptionNotifier.notify cfg reg exc addl tb now beh).2 = none ∧
    connAttempts (ExceptionNotifier.notify cfg reg exc addl tb now beh).1 =
      (ExceptionRegistry.get_entries reg exc.ty).length ∧
    (∀ (e : RegistryEntry) (ctx : Context) (t : Transport),
      Transport.smtpOnly t = true →
      (ExceptionNotifier.sendNotification cfg e ctx t).2 = none ∧
      ((ExceptionNotifier.sendNotificationTry cfg e ctx t).2.isSome = true →
        Event.logError ∈ (ExceptionNotifier.sendNotification cfg e ctx t).1)) := by
  intro cfg reg exc addl tb now beh hsm
  refine ⟨?_, ?_, fun e ctx t ht =>
    ⟨sendNotification_caught cfg e ctx t ht, sendNotification_logged cfg e ctx t ht⟩⟩
  · rcases hE : ExceptionRegistry.get_entries reg exc.ty with - | ⟨e0, es⟩
    · simp [ExceptionNotifier.notify, hE]
    · simp only [ExceptionNotifier.notify, hE, List.isEmpty_cons, if_neg]
      exact (notifyLoop_ok cfg (ExceptionNotifier.notifyContext exc tb now addl)
        beh hsm (e0 :: es) 0).1
  · rcases hE : ExceptionRegistry.get_entries reg exc.ty with - | ⟨e0, es⟩
    · simp [ExceptionNotifier.notify, hE, connAttempts]
    · simp only [ExceptionNotifier.notify, hE, List.isEmpty_cons, if_neg]
      exact (notifyLoop_ok cfg (ExceptionNotifier.notifyContext exc tb now addl)
        beh hsm (e0 :: es) 0).2

/-- Witness for C3: two entries registered, the transport fails every send
with an SMTP error; nothing propagates out of `notify` and both entries
still get exactly one connection attempt. -/
theorem claim_C3_witness :
    (ExceptionNotifier.notify ⟨"smtp.example.com", 587, "s@x.com", none, "tls"⟩
        [(ExcType.root 0 "E",
          [⟨[PyObj.str "a@x.com"], "S1", "B1", "plain"⟩,
           ⟨[PyObj.str "b@x.com"], "S2", "B2", "plain"⟩])]
        ⟨ExcType.root 0 "E", "boom"⟩ none "tb" ⟨2025, 6, 1, 12, 0, 0⟩
        (fun _ => ⟨none, none, none, none, some (PyError.smtp "send failed")⟩)).2 = none ∧
    connAttempts
        (ExceptionNotifier.notify ⟨"smtp.example.com", 587, "s@x.com", none, "tls"⟩
          [(ExcType.root 0 "E",
            [⟨[PyObj.str "a@x.com"], "S1", "B1", "plain"⟩,
             ⟨[PyObj.str "b@x.com"], "S2", "B2", "plain"⟩])]
          ⟨ExcType.root 0 "E", "boom"⟩ none "tb" ⟨2025, 6, 1, 12, 0, 0⟩
          (fun _ => ⟨none, none, none, none, some (PyError.smtp "send failed")⟩)).1 =
      (ExceptionRegistry.get_entries
        [(ExcType.root 0 "E",
          [⟨[PyObj.str "a@x.com"], "S1", "B1", "plain"⟩,
           ⟨[PyObj.str "b@x.com"], "S2", "B2", "plain"⟩])]
        (ExcType.root 0 "E" : ExcType)).length :=
  ⟨(claim_C3 _ _ _ _ _ _ _ (fun _ => by decide)).1,
   (claim_C3 _ _ _ _ _ _ _ (fun _ => by decide)).2.1⟩

/-! ### Registration sequences and send order -/

theorem mk?_ok_of_valid : ∀ (a : RegArgs), validArgs a = true →
    RegistryEntry.mk? a.recipients a.subject a.body a.body_type = .ok a.make := by
  intro a h
  simp only [validArgs, Bool.and_eq_true] at h
  obtain ⟨⟨⟨⟨h1, h2⟩, h3⟩, h4⟩, h5⟩ := h
  have h1' : a.recipients.isEmpty = false := by simpa using h1
  have h3' : pyBlank a.subject = false := by simpa using h3
  have h4' : pyBlank a.body = false := by simpa using h4
  simp only [RegistryEntry.mk?, RegArgs.make]
  rw [if_neg (by simp [h1', h2]), if_neg (by simp [h3']), if_neg (by simp [h4']),
    if_neg (by simp [h5])]

theorem register_valid : ∀ (r : Registry) (t : ExcType) (a : RegArgs),
    validArgs a = true →
    ExceptionRegistry.register r t a.recipients a.subject a.body a.body_type =
      (registerEntry r t a.make, none) := by
  intro r t a h
  simp [ExceptionRegistry.register, mk?_ok_of_valid a h]

theorem fold_lookup_getD : ∀ (argsList : List RegArgs) (r : Registry) (t : ExcType),
    (∀ a ∈ argsList, validArgs a = true) →
    (lookupTable (registerFold r t argsList) t).getD [] =
      (lookupTable r t).getD [] ++ argsList.map RegArgs.make := by
  intro argsList
  induction argsList with
  | nil => intro r t _; simp [registerFold]
  | cons a as ih =>
    intro r t hv
    have hva : validArgs a = true := hv a (by simp)
    have step : registerFold r t (a :: as) = registerFold (registerEntry r t a.make) t as := by
      simp [registerFold, register_valid r t a hva]
    rw [step, ih _ t (fun x hx => hv x (by simp [hx])), registerEntry_same]
    simp

theorem registerEntry_lookup_some : ∀ (r : Registry) (t : ExcType)
    (e : RegistryEntry) (l : List RegistryEntry),
    lookupTable r t = some l → lookupTable (registerEntry r t e) t = some (l ++ [e]) := by
  intro r t e l h
  induction r with
  | nil => simp [lookupTable] at h
  | cons p ps ih =>
    simp only [lookupTable] at h
    simp only [registerEntry]
    split
    · rename_i heq
      simp only [lookupTable, if_pos heq]
      rw [if_pos heq] at h
      simp only [Option.some.injEq] at h
      rw [h]
    · rename_i hne
      rw [if_neg hne] at h
      simp only [lookupTable]
      rw [if_neg hne]
      exact ih h

theorem fold_lookup_some : ∀ (argsList : List RegArgs) (r : Registry) (t : ExcType)
    (l : List RegistryEntry),
    (∀ a ∈ argsList, validArgs a = true) → lookupTable r t = some l →
    lookupTable (registerFold r t argsList) t = some (l ++ argsList.map RegArgs.make) := by
  intro argsList
  induction argsList with
  | nil => intro r t l _ h; simpa [registerFold] using h
  | cons a as ih =>
    intro r t l hv h
    have hva : validArgs a = true := hv a (by simp)
    have step : registerFold r t (a :: as) = registerFold (registerEntry r t a.make) t as := by
      simp [registerFold, register_valid r t a hva]
    rw [step, ih _ t (l ++ [a.make]) (fun x hx => hv x (by simp [hx]))
      (registerEntry_lookup_some r t a.make l h)]
    simp

theorem sends_append : ∀ (a b : List Event), sends (a ++ b) = sends a ++ sends b := by
  intro a b
  simp [sends, List.filter_append]

theorem sendNotification_okT : ∀ (cfg : SMTPConfig) (e : RegistryEntry) (ctx : Context),
    sends (ExceptionNotifier.sendNotification cfg e ctx okTransport).1 =
      [Event.sendOk (joinRecipients e.recipients) (e.format ctx).1 (e.format ctx).2] ∧
    (ExceptionNotifier.sendNotification cfg e ctx okTransport).2 = none := by
  intro cfg e ctx
  rcases hc : cfg.credentials with - | cr <;>
    by_cases hssl : cfg.encryption = "ssl" <;>
    by_cases htls : cfg.encryption = "tls" <;>
    first
      | exact absurd (hssl ▸ htls) (by decide)
      | simp [ExceptionNotifier.sendNotification, ExceptionNotifier.sendNotificationTry,
          ExceptionNotifier.getConnection, okTransport, hc, hssl, htls, sends,
          Event.isSend, List.filter]

theorem notifyLoop_sends_ok : ∀ (cfg : SMTPConfig) (ctx : Context)
    (es : List RegistryEntry) (i : Nat),
    sends (ExceptionNotifier.notifyLoop cfg ctx (fun _ => okTransport) i es).1 =
      es.map (fun e =>
        Event.sendOk (joinRecipients e.recipients) (e.format ctx).1 (e.format ctx).2) := by
  intro cfg ctx es
  induction es with
  | nil => intro i; simp [ExceptionNotifier.notifyLoop, sends]
  | cons e rest ih =>
    intro i
    obtain ⟨hs, hn⟩ := sendNotification_okT cfg e ctx
    rcases hsend : ExceptionNotifier.sendNotification cfg e ctx okTransport with ⟨evs, err⟩
    rw [hsend] at hs hn
    simp only at hn
    subst hn
    simp only [ExceptionNotifier.notifyLoop, hsend]
    rw [sends_append]
    simp only at hs
    rw [hs, ih (i + 1)]
    simp

theorem get_entries_nil : ∀ (t : ExcType), ExceptionRegistry.get_entries [] t = [] := by
  intro t
  induction t with
  | root i n => simp [ExceptionRegistry.get_entries, lookupTable]
  | derived i n b ih => simp [ExceptionRegistry.get_entries, lookupTable, ih]

/-- C7: starting from the empty registry, N `register` calls with valid
inputs for one exception type build exactly the list of the N constructed
entries in call order; the list has length N; and a later `notify` for that
type (all-success transport) performs its sends for exactly those entries in
the same order. -/
theorem claim_C7 : ∀ (t : ExcType) (argsList : List RegArgs) (cfg : SMTPConfig)
    (msg tb : String) (now : DateTime) (addl : Option Context),
    (∀ a ∈ argsList, validArgs a = true) →
    (lookupTable (registerFold [] t argsList) t).getD [] = argsList.map RegArgs.make ∧
    ((lookupTable (registerFold [] t argsList) t).getD []).length = argsList.length ∧
    sends (ExceptionNotifier.notify cfg (registerFold [] t argsList) ⟨t, msg⟩ addl tb now
        (fun _ => okTransport)).1 =
      argsList.map (fun a => Event.sendOk (joinRecipients a.make.recipients)
        (a.make.format (ExceptionNotifier.notifyContext ⟨t, msg⟩ tb now addl)).1
        (a.make.format (ExceptionNotifier.notifyContext ⟨t, msg⟩ tb now addl)).2) := by
  intro t argsList cfg msg tb now addl hv
  have h1 : (lookupTable (registerFold [] t argsList) t).getD [] =
      argsList.map RegArgs.make := by
    have := fold_lookup_getD argsList [] t hv
    simpa [lookupTable] using this
  refine ⟨h1, by rw [h1, List.length_map], ?_⟩
  rcases hargs : argsList with - | ⟨a, as⟩
  · simp [registerFold, ExceptionNotifier.notify, get_entries_nil, sends]
  · have hva : validArgs a = true := by
      apply hv; simp [hargs]
    have step : registerFold [] t (a :: as) = registerFold (registerEntry [] t a.make) t as := by
      simp [registerFold, register_valid [] t a hva]
    have hfirst : lookupTable (registerEntry [] t a.make) t = some [a.make] := by
      simp [registerEntry, lookupTable]
    have hsome : lookupTable (registerFold [] t (a :: as)) t =
        some ((a :: as).map RegArgs.make) := by
      rw [step, fold_lookup_some as _ t [a.make]
        (fun x hx => hv x (by simp [hargs, hx])) hfirst]
      simp
    have hE : ExceptionRegistry.get_entries (registerFold [] t (a :: as)) t =
        (a :: as).map RegArgs.make :=
      get_entries_hit _ _ _ hsome
    simp only [ExceptionNotifier.notify, hE, List.map_cons, List.isEmpty_cons,
      Bool.false_eq_true, if_false]
    rw [notifyLoop_sends_ok]
    simp [List.map_map]

/-- Witness for C7: two valid registrations for one type; the stored list is
the two constructed entries in call order, has length two, and an
all-success `notify` sends them in that order. -/
theorem claim_C7_witness :
    (lookupTable
        (registerFold [] (ExcType.root 0 "ValueError")
          ([⟨[PyObj.str "a@x.com"], "S1", "B1", "plain"⟩,
            ⟨[PyObj.str "b@x.com"], "S2", "B2", "plain"⟩] : List RegArgs))
        (ExcType.root 0 "ValueError")).getD [] =
      ([⟨[PyObj.str "a@x.com"], "S1", "B1", "plain"⟩,
        ⟨[PyObj.str "b@x.com"], "S2", "B2", "plain"⟩] : List RegArgs).map RegArgs.make ∧
    ((lookupTable
        (registerFold [] (ExcType.root 0 "ValueError")
          ([⟨[PyObj.str "a@x.com"], "S1", "B1", "plain"⟩,
            ⟨[PyObj.str "b@x.com"], "S2", "B2", "plain"⟩] : List RegArgs))
        (ExcType.root 0 "ValueError")).getD []).length =
      ([⟨[PyObj.str "a@x.com"], "S1", "B1", "plain"⟩,
        ⟨[PyObj.str "b@x.com"], "S2", "B2", "plain"⟩] : List RegArgs).length ∧
    sends (ExceptionNotifier.notify ⟨"smtp.example.com", 25, "s@x.com", none, "tls"⟩
        (registerFold [] (ExcType.root 0 "ValueError")
          ([⟨[PyObj.str "a@x.com"], "S1", "B1", "plain"⟩,
            ⟨[PyObj.str "b@x.com"], "S2", "B2", "plain"⟩] : List RegArgs))
        ⟨ExcType.root 0 "ValueError", "boom"⟩ none "tb" ⟨2025, 6, 1, 12, 0, 0⟩
        (fun _ => okTransport)).1 =
      ([⟨[PyObj.str "a@x.com"], "S1", "B1", "plain"⟩,
        ⟨[PyObj.str "b@x.com"], "S2", "B2", "plain"⟩] : List RegArgs).map
        (fun a => Event.sendOk (joinRecipients a.make.recipients)
          (a.make.format (ExceptionNotifier.notifyContext
            ⟨ExcType.root 0 "ValueError", "boom"⟩ "tb" ⟨2025, 6, 1, 12, 0, 0⟩ none)).1
          (a.make.format (ExceptionNotifier.notifyContext
            ⟨ExcType.root 0 "ValueError", "boom"⟩ "tb" ⟨2025, 6, 1, 12, 0, 0⟩ none)).2) :=
  claim_C7 (ExcType.root 0 "ValueError")
    ([⟨[PyObj.str "a@x.com"], "S1", "B1", "plain"⟩,
      ⟨[PyObj.str "b@x.com"], "S2", "B2", "plain"⟩] : List RegArgs)
    ⟨"smtp.example.com", 25, "s@x.com", none, "tls"⟩ "boom" "tb"
    ⟨2025, 6, 1, 12, 0, 0⟩ none (by decide)
